import Mathlib

set_option maxHeartbeats 1000000

/-!
Verification development for the in-memory virtual file system and
editor-tab stores of the `vortexity` browser IDE
(src/src/contexts/FileSystemContext.tsx and src/src/contexts/EditorContext.tsx).

The TypeScript state managers are embedded shallowly: every store
operation becomes a pure function on an explicit `IDEState`; optional TS
fields become `Option`s; JS string/array primitives used by the source
(`split`, `join`, first-occurrence `replace`, `splice`, truthiness of
`||` on strings) are reproduced by executable Lean functions below.
-/

namespace Vortexity

/-! ## JS string primitives used by the source -/

/-- Split a character list at every occurrence of `sep`.
Mirrors `String.prototype.split` with a single-character separator:
`"/a/b".split('/') = ["", "a", "b"]`, `"".split('/') = [""]`. -/
def splitChars (sep : Char) : List Char → List (List Char)
  | [] => [[]]
  | c :: cs =>
    let r := splitChars sep cs
    if c = sep then [] :: r
    else
      match r with
      | h :: t => (c :: h) :: t
      | [] => [[c]]

/-- `s.split(sep)` for a one-character separator. -/
def splitStr (sep : Char) (s : String) : List String :=
  (splitChars sep s.data).map String.mk

/-- `parts.join('/')`. -/
def joinSlash : List String → String
  | [] => ""
  | [x] => x
  | x :: xs => x ++ "/" ++ joinSlash xs

/-- Replace the first occurrence of `pat` in the character list, as
`String.prototype.replace(pat, rep)` does with a string pattern
(JS replaces only the first occurrence; no occurrence leaves the
string unchanged; the empty pattern matches at position 0). -/
def replaceFirstChars (pat rep : List Char) : List Char → List Char
  | [] => if pat.isPrefixOf ([] : List Char) then rep else []
  | c :: cs =>
    if pat.isPrefixOf (c :: cs) then rep ++ (c :: cs).drop pat.length
    else c :: replaceFirstChars pat rep cs

/-- `s.replace(pat, rep)` (first occurrence only, JS semantics). -/
def replaceFirst (s pat rep : String) : String :=
  String.mk (replaceFirstChars pat.data rep.data s.data)

/-- JS `o || dflt` for an optional string: `undefined` and `""` are falsy. -/
def jsOrString (o : Option String) (dflt : String) : String :=
  match o with
  | some v => if v = "" then dflt else v
  | none => dflt

/-- ASCII lower-casing of a string, as `toLowerCase` acts on the
ASCII file-extension inputs the source feeds it. -/
def toLowerStr (s : String) : String :=
  String.mk (s.data.map Char.toLower)

/-! ## Tree store data model (FileSystemContext.tsx) -/

/-- `FileType` from FileSystemContext.tsx. -/
inductive FileType where
  | file
  | folder
deriving DecidableEq, Repr

/-- The scalar fields of a `FileSystemItem` (everything except the
`children` array). TS-optional fields are `Option`s. -/
structure FSData where
  id : String
  name : String
  type : FileType
  content : Option String
  language : Option String
  path : String
  isOpen : Option Bool
  isModified : Option Bool
  parentId : Option String
deriving DecidableEq, Repr

/-- A `FileSystemItem`: scalar data plus the optional `children` array
(`FileSystemItem[] | undefined` in TS; note `[]` is truthy in JS and
distinct from `undefined`, hence the `Option`). -/
inductive FSItem where
  | mk (data : FSData) (children : Option (List FSItem))

def FSItem.data : FSItem → FSData
  | .mk d _ => d

def FSItem.children : FSItem → Option (List FSItem)
  | .mk _ c => c

/-- `getLanguageFromExtension` from FileSystemContext.tsx:
`filename.split('.').pop()?.toLowerCase() || ''` looked up in the
static extension table, defaulting to `"plaintext"`. -/
def getLanguageFromExtension (filename : String) : String :=
  let ext := toLowerStr ((splitStr '.' filename).getLastD "")
  match ext with
  | "html" => "html"
  | "htm" => "html"
  | "css" => "css"
  | "scss" => "scss"
  | "sass" => "sass"
  | "less" => "less"
  | "js" => "javascript"
  | "jsx" => "javascript"
  | "ts" => "typescript"
  | "tsx" => "typescript"
  | "json" => "json"
  | "py" => "python"
  | "pyc" => "python"
  | "pyd" => "python"
  | "pyo" => "python"
  | "java" => "java"
  | "c" => "c"
  | "cpp" => "cpp"
  | "h" => "c"
  | "hpp" => "cpp"
  | "cs" => "csharp"
  | "rb" => "ruby"
  | "php" => "php"
  | "go" => "go"
  | "rs" => "rust"
  | "swift" => "swift"
  | "kt" => "kotlin"
  | "sh" => "shell"
  | "bash" => "bash"
  | "sql" => "sql"
  | "md" => "markdown"
  | "yml" => "yaml"
  | "yaml" => "yaml"
  | "xml" => "xml"
  | "toml" => "toml"
  | "ini" => "ini"
  | "graphql" => "graphql"
  | "dockerfile" => "dockerfile"
  | _ => "plaintext"

/-- `findItemById` from FileSystemContext.tsx: depth-first search, each
item checked before its children, children before later siblings. -/
def findItemById : List FSItem → String → Option FSItem
  | [], _ => none
  | .mk d cs :: fs, i =>
    if d.id = i then some (.mk d cs)
    else
      match cs with
      | some l =>
        match findItemById l i with
        | some r => some r
        | none => findItemById fs i
      | none => findItemById fs i

/-- `findParentById` from FileSystemContext.tsx: returns the first item
(in the same depth-first order) one of whose children has id `cid`.
An item with `children === undefined` never matches. -/
def findParentById : List FSItem → String → Option FSItem
  | [], _ => none
  | .mk d cs :: fs, cid =>
    if (match cs with
        | some l => l.any (fun c => c.data.id == cid)
        | none => false) then some (.mk d cs)
    else
      match cs with
      | some l =>
        match findParentById l cid with
        | some r => some r
        | none => findParentById fs cid
      | none => findParentById fs cid

/-- `createEmptyFileSystem` from FileSystemContext.tsx: a single root
folder with reserved id `"root"`, path `"/" ++ rootName`, open, no
children. -/
def createEmptyFileSystem (rootName : String) : List FSItem :=
  [ .mk { id := "root", name := rootName, type := .folder, content := none,
          language := none, path := "/" ++ rootName, isOpen := some true,
          isModified := none, parentId := none } (some []) ]

/-- The item `createFile` constructs: `{ id, name, type, path, parentId,
isOpen: false }` plus, for folders, `children = []`, and for files,
`content = ''`, a computed `language` and `isModified = false`. -/
def mkNewItem (parentPath name : String) (ty : FileType) (newId parId : String) :
    FSItem :=
  .mk { id := newId, name := name, type := ty,
        content := if ty = .folder then none else some "",
        language := if ty = .folder then none
                    else some (getLanguageFromExtension name),
        path := parentPath ++ "/" ++ name,
        isOpen := some false,
        isModified := if ty = .folder then none else some false,
        parentId := some parId }
    (if ty = .folder then some [] else none)

/-- `findAndAddToParent` inside `createFile`: finds the first item whose
`path` equals `parentPath` (the item's own path is tested before its
children are visited, children before later siblings; the item's `type`
is NOT checked) and appends the new item to its children
(`[...(item.children || []), newItem]`). Returns the updated forest and
whether a parent was found. -/
def createFileList (parentPath name : String) (ty : FileType) (newId : String) :
    List FSItem → List FSItem × Bool
  | [] => ([], false)
  | .mk d cs :: fs =>
    if d.path = parentPath then
      (.mk d (some ((cs.getD []) ++ [mkNewItem parentPath name ty newId d.id])) :: fs,
       true)
    else
      match cs with
      | some l =>
        let r := createFileList parentPath name ty newId l
        if r.2 then (.mk d (some r.1) :: fs, true)
        else
          let r2 := createFileList parentPath name ty newId fs
          (.mk d cs :: r2.1, r2.2)
      | none =>
        let r2 := createFileList parentPath name ty newId fs
        (.mk d cs :: r2.1, r2.2)

/-- `updateChildrenPaths` (inside `renameFile`) and `updateChildPaths`
(inside `moveFile`): both rewrite every descendant's `path` with
`child.path.replace(oldP, newP)` (JS first-occurrence replace) and
recurse; they differ only in where the `children`-defined test sits,
which is observationally irrelevant. -/
def replaceDescendantPaths (oldP newP : String) : List FSItem → List FSItem
  | [] => []
  | .mk d cs :: fs =>
    .mk { d with path := replaceFirst d.path oldP newP }
      (match cs with
       | some l => some (replaceDescendantPaths oldP newP l)
       | none => none)
    :: replaceDescendantPaths oldP newP fs

/-- `updateItem` inside `renameFile`: finds the item with the given id
(first match in depth-first order), replaces the last `/`-segment of its
path with `newName`, sets `name` (and recomputes `language` for files),
then — if `children` is defined — rewrites descendant paths with
`updateChildrenPaths(item, oldItemPath, newPath)`.

IMPORTANT: the source computes
`oldItemPath = item.path.split('/').slice(0,-1).join('/') + '/' + item.name`
AFTER `item.path` and `item.name` have already been overwritten with the
new values, so `oldItemPath` equals the NEW path; this is embedded
faithfully. -/
def renameItemList (i newName : String) : List FSItem → List FSItem × Bool
  | [] => ([], false)
  | .mk d cs :: fs =>
    if d.id = i then
      let newPath := joinSlash (((splitStr '/' d.path).dropLast) ++ [newName])
      let d' := { d with
        name := newName,
        path := newPath,
        language := if d.type = .file
                    then some (getLanguageFromExtension newName)
                    else d.language }
      match cs with
      | some l =>
        let oldItemPath :=
          joinSlash ((splitStr '/' newPath).dropLast) ++ "/" ++ newName
        (.mk d' (some (replaceDescendantPaths oldItemPath newPath l)) :: fs, true)
      | none => (.mk d' none :: fs, true)
    else
      match cs with
      | some l =>
        let r := renameItemList i newName l
        if r.2 then (.mk d (some r.1) :: fs, true)
        else
          let r2 := renameItemList i newName fs
          (.mk d cs :: r2.1, r2.2)
      | none =>
        let r2 := renameItemList i newName fs
        (.mk d cs :: r2.1, r2.2)

/-- `removeItem` inside `deleteFile`: splices out the first item (in
depth-first order) whose id matches, together with its whole subtree. -/
def removeItemList (i : String) : List FSItem → List FSItem × Bool
  | [] => ([], false)
  | .mk d cs :: fs =>
    if d.id = i then (fs, true)
    else
      match cs with
      | some l =>
        let r := removeItemList i l
        if r.2 then (.mk d (some r.1) :: fs, true)
        else
          let r2 := removeItemList i fs
          (.mk d cs :: r2.1, r2.2)
      | none =>
        let r2 := removeItemList i fs
        (.mk d cs :: r2.1, r2.2)

/-- `updateItem` inside `updateFileContent`: finds the first item with
the given id AND type `'file'`, sets its content and
`isModified = (item.content !== content)`. -/
def updateContentList (i c : String) : List FSItem → List FSItem × Bool
  | [] => ([], false)
  | .mk d cs :: fs =>
    if d.id = i ∧ d.type = .file then
      (.mk { d with
              content := some c,
              isModified := some (decide (¬ d.content = some c)) } cs :: fs, true)
    else
      match cs with
      | some l =>
        let r := updateContentList i c l
        if r.2 then (.mk d (some r.1) :: fs, true)
        else
          let r2 := updateContentList i c fs
          (.mk d cs :: r2.1, r2.2)
      | none =>
        let r2 := updateContentList i c fs
        (.mk d cs :: r2.1, r2.2)

/-- The child-removal step of `moveFile`:
`currentParent.children = currentParent.children.filter(c => c.id !== fileId)`,
applied at the first parent `findParentById` would return. -/
def detachChild (cid : String) : List FSItem → List FSItem × Bool
  | [] => ([], false)
  | .mk d cs :: fs =>
    if (match cs with
        | some l => l.any (fun c => c.data.id == cid)
        | none => false) then
      (.mk d (some ((cs.getD []).filter (fun c => decide (¬ c.data.id = cid)))) :: fs, true)
    else
      match cs with
      | some l =>
        let r := detachChild cid l
        if r.2 then (.mk d (some r.1) :: fs, true)
        else
          let r2 := detachChild cid fs
          (.mk d cs :: r2.1, r2.2)
      | none =>
        let r2 := detachChild cid fs
        (.mk d cs :: r2.1, r2.2)

/-- The attach step of `moveFile`:
`newParent.children = [...(newParent.children || []), fileToMove]`,
applied at the first item whose id is `pid`. -/
def attachToParent (pid : String) (child : FSItem) : List FSItem → List FSItem × Bool
  | [] => ([], false)
  | .mk d cs :: fs =>
    if d.id = pid then
      (.mk d (some ((cs.getD []) ++ [child])) :: fs, true)
    else
      match cs with
      | some l =>
        let r := attachToParent pid child l
        if r.2 then (.mk d (some r.1) :: fs, true)
        else
          let r2 := attachToParent pid child fs
          (.mk d cs :: r2.1, r2.2)
      | none =>
        let r2 := attachToParent pid child fs
        (.mk d cs :: r2.1, r2.2)

/-! ## Combined application state

The two context providers hold their state in React `useState` cells and
the editor additionally writes through to `sessionStorage`. All of it is
collected in one explicit state record; each provider function becomes a
pure transition on it. -/

/-- `TabInfo` from EditorContext.tsx. -/
structure TabInfo where
  id : String
  name : String
  language : String
  path : String
  isModified : Bool
  content : Option String
deriving DecidableEq, Repr

/-- The `type` tag of `EditorHistoryAction`. -/
inductive HistType where
  | content
  | tab
  | delete
deriving DecidableEq, Repr

/-- `EditorHistoryAction` from EditorContext.tsx. -/
structure HistAction where
  type : HistType
  tabId : String
  content : Option String
  previousContent : Option String
  tabInfo : Option TabInfo
deriving DecidableEq, Repr

/-- The whole application state: the Tree Store (`files`, `selectedFile`),
the Tab/Session Store (`tabs`, `activeTabId`, the two history stacks) and
the `sessionStorage` key-value collaborator. -/
structure IDEState where
  files : List FSItem
  selectedFile : Option String
  tabs : List TabInfo
  activeTabId : Option String
  undoStack : List HistAction
  redoStack : List HistAction
  session : List (String × String)

/-! ### sessionStorage model -/

/-- `sessionStorage.setItem`. -/
def sessionSet (sess : List (String × String)) (k v : String) :
    List (String × String) :=
  if sess.any (fun p => p.1 == k) then
    sess.map (fun p => if p.1 = k then (k, v) else p)
  else sess ++ [(k, v)]

/-- `sessionStorage.getItem` (`none` is JS `null`). -/
def sessionGet (sess : List (String × String)) (k : String) : Option String :=
  (sess.find? (fun p => p.1 == k)).map (fun p => p.2)

/-- `sessionStorage.removeItem`. -/
def sessionRemove (sess : List (String × String)) (k : String) :
    List (String × String) :=
  sess.filter (fun p => decide (¬ p.1 = k))

/-- The key `` `${STORAGE_KEY_PREFIX}${tabId}` `` under which a tab's
content is persisted. -/
def tabKey (tabId : String) : String := "code-editor-tab-" ++ tabId

/-! ### Tree Store operations (FileSystemContext.tsx) -/

/-- `createFile(parentPath, name, type)`. The id produced by the
`generateId()` random-string call is passed in as `newId`. The TS
function's declared return type is `string | undefined`, and its body
returns `newId` on every control path; a new File becomes the selected
file whether or not a parent was found. -/
def createFile (s : IDEState) (parentPath name : String) (ty : FileType)
    (newId : String) : IDEState × Option String :=
  ({ s with
     files := (createFileList parentPath name ty newId s.files).1,
     selectedFile := if ty = .file then some newId else s.selectedFile },
   some newId)

/-- `renameFile(id, newName)`. -/
def renameFile (s : IDEState) (i newName : String) : IDEState :=
  { s with files := (renameItemList i newName s.files).1 }

/-- `deleteFile(id)`: `removeItem` runs only when `id !== 'root'`; the
selection is cleared whenever the deleted id was selected (this check is
outside the root guard in the source). -/
def deleteFile (s : IDEState) (i : String) : IDEState :=
  { s with
    files := if i = "root" then s.files else (removeItemList i s.files).1,
    selectedFile := if s.selectedFile = some i then none else s.selectedFile }

/-- `updateFileContent(id, content)`. -/
def updateFileContent (s : IDEState) (i c : String) : IDEState :=
  { s with files := (updateContentList i c s.files).1 }

/-- `selectFile(id)`. -/
def selectFile (s : IDEState) (i : String) : IDEState :=
  { s with selectedFile := some i }

/-- `moveFile(fileId, newParentId)`: bails out (returning the previous
state) when the moved item, the new parent, or the current parent is not
found, or the new parent is not a folder. Otherwise the source mutates
in place: it filters the item out of its current parent's children,
overwrites its `path`/`parentId`, rewrites descendant paths with
`child.path.replace(oldPath, newPath)`, and appends the item to the new
parent's children. The pure translation detaches the subtree and then
attaches the re-pathed copy at the first item whose id is `newParentId`;
when the new parent was inside the moved subtree the attach finds no
target and the subtree is dropped, exactly as the source's mutation of
an already-detached object is lost. (With duplicate node ids the
first-match choice could differ from the source; ids generated by the
store are unique.) -/
def moveFile (s : IDEState) (fileId newParentId : String) : IDEState :=
  match findItemById s.files fileId with
  | none => s
  | some ftm =>
    match findItemById s.files newParentId with
    | none => s
    | some np =>
      if np.data.type = .folder then
        match findParentById s.files fileId with
        | none => s
        | some _ =>
          let oldPath := ftm.data.path
          let newPath := np.data.path ++ "/" ++ ftm.data.name
          let ftm' := FSItem.mk
            { ftm.data with path := newPath, parentId := some newParentId }
            (ftm.children.map (replaceDescendantPaths oldPath newPath))
          let files1 := (detachChild fileId s.files).1
          { s with files := (attachToParent newParentId ftm' files1).1 }
      else s

/-! ### Tab/Session Store operations (EditorContext.tsx) -/

/-- `getTabContent(tabId)`: the in-memory tab buffer when defined, else
the sessionStorage record, else `file?.content || ''` from the tree. -/
def getTabContent (s : IDEState) (tabId : String) : String :=
  match (s.tabs.find? (fun t => t.id == tabId)).bind (fun t => t.content) with
  | some c => c
  | none =>
    match sessionGet s.session (tabKey tabId) with
    | some c => c
    | none => jsOrString ((findItemById s.files tabId).bind (fun f => f.data.content)) ""

/-- `updateTabContent(tabId, content)`: when a tab with this id exists,
push a content action (with the tab's previous buffer) onto the undo
stack and clear the redo stack; then set the buffer and `isModified` on
every tab with this id, and write sessionStorage. -/
def updateTabContent (s : IDEState) (tabId content : String) : IDEState :=
  let s1 : IDEState :=
    match s.tabs.find? (fun t => t.id == tabId) with
    | some t =>
      { s with
        undoStack := s.undoStack ++
          [{ type := .content, tabId := tabId, content := some content,
             previousContent := t.content, tabInfo := none }],
        redoStack := [] }
    | none => s
  { s1 with
    tabs := s1.tabs.map (fun t =>
      if t.id = tabId then { t with content := some content, isModified := true }
      else t),
    session := sessionSet s1.session (tabKey tabId) content }

/-- `openTab(fileId)`: no-op when the node is missing or a folder;
otherwise appends a snapshot tab unless one with this id exists, and in
either case activates the tab and propagates the selection. -/
def openTab (s : IDEState) (fileId : String) : IDEState :=
  match findItemById s.files fileId with
  | none => s
  | some f =>
    if f.data.type = .file then
      let s1 : IDEState :=
        if s.tabs.any (fun t => t.id == fileId) then s
        else
          let content := jsOrString f.data.content ""
          { s with
            tabs := s.tabs ++
              [{ id := fileId, name := f.data.name,
                 language := jsOrString f.data.language "plaintext",
                 path := f.data.path, isModified := false,
                 content := some content }],
            session := sessionSet s.session (tabKey fileId) content }
      { s1 with activeTabId := some fileId, selectedFile := some fileId }
    else s

/-- `closeTab(tabId)`: push a tab action snapshotting the closed tab
(clearing redo), drop tabs with this id, delete the sessionStorage
record and, when the closed tab was active, activate the first other
tab of the PRE-close list (`null` when it was the only tab; the
`?.id || null` coalescing also maps an empty-string id to `null`),
propagating the selection only when the new active id is truthy. -/
def closeTab (s : IDEState) (tabId : String) : IDEState :=
  let s1 : IDEState :=
    match s.tabs.find? (fun t => t.id == tabId) with
    | some t =>
      { s with
        undoStack := s.undoStack ++
          [{ type := .tab, tabId := tabId, content := none,
             previousContent := none, tabInfo := some t }],
        redoStack := [] }
    | none => s
  let s2 := { s1 with
    tabs := s1.tabs.filter (fun t => decide (¬ t.id = tabId)),
    session := sessionRemove s1.session (tabKey tabId) }
  if s.activeTabId = some tabId then
    let newActive : Option String :=
      if 1 < s.tabs.length then
        match s.tabs.find? (fun t => decide (¬ t.id = tabId)) with
        | some t => if t.id = "" then none else some t.id
        | none => none
      else none
    { s2 with
      activeTabId := newActive,
      selectedFile := match newActive with
                      | some a => some a
                      | none => s2.selectedFile }
  else s2

/-- `saveActiveFile()`: the guard `if (!activeTabId) return` makes the
call a no-op when `activeTabId` is `null` OR the falsy empty string;
otherwise it pushes the active tab's buffer into the tree via
`updateFileContent` and clears `isModified` on tabs with the active id. -/
def saveActiveFile (s : IDEState) : IDEState :=
  match s.activeTabId with
  | none => s
  | some tid =>
    if tid = "" then s
    else
      let c := getTabContent s tid
      { s with
        files := (updateContentList tid c s.files).1,
        tabs := s.tabs.map (fun t =>
          if t.id = tid then { t with isModified := false } else t) }

/-- JS `arr.splice(i, 0, x)`: insert at `i`, clamped to the length. -/
def jsSpliceInsert {α : Type} (l : List α) (i : Nat) (x : α) : List α :=
  l.take i ++ x :: l.drop i

/-- `moveTab(fromIndex, toIndex)` acting on the tab array:
`splice(fromIndex, 1)` yields the removed tab — `undefined` (`none`)
when `fromIndex` is out of range, in which case nothing is removed —
and `splice(toIndex, 0, movedTab)` re-inserts whatever that produced.
The codomain is `List (Option TabInfo)` because the source can insert
`undefined` into the array; in-range calls produce only `some` entries.
(Indices are `Nat`: the drag-and-drop call sites pass array indices.) -/
def moveTabList (tabs : List TabInfo) (fromIndex toIndex : Nat) :
    List (Option TabInfo) :=
  jsSpliceInsert ((tabs.eraseIdx fromIndex).map some) toIndex tabs[fromIndex]?

/-- `undoLastAction()`: pop the last undo action (no-op when empty),
push it onto redo, and apply its inverse: a content action with a
defined `previousContent` restores that buffer with `isModified = true`
(sessionStorage is written only when the restored content is truthy);
a tab action re-appends the snapshot to the END of the tab list. -/
def undoLastAction (s : IDEState) : IDEState :=
  match s.undoStack.getLast? with
  | none => s
  | some a =>
    let s1 := { s with undoStack := s.undoStack.dropLast,
                       redoStack := s.redoStack ++ [a] }
    match a.type with
    | .content =>
      match a.previousContent with
      | some pc =>
        { s1 with
          tabs := s1.tabs.map (fun t =>
            if t.id = a.tabId then { t with content := some pc, isModified := true }
            else t),
          session := if pc = "" then s1.session
                     else sessionSet s1.session (tabKey a.tabId) pc }
      | none => s1
    | .tab =>
      match a.tabInfo with
      | some ti =>
        { s1 with
          tabs := s1.tabs ++ [ti],
          session := match ti.content with
                     | some c => if c = "" then s1.session
                                 else sessionSet s1.session (tabKey a.tabId) c
                     | none => s1.session }
      | none => s1
    | .delete => s1

/-- `redoLastAction()`: pop the last redo action (no-op when empty),
push it back onto undo, and re-apply it: a content action writes the
action's `content` into the tab buffer with `isModified = true`; a tab
action removes the tab again. -/
def redoLastAction (s : IDEState) : IDEState :=
  match s.redoStack.getLast? with
  | none => s
  | some a =>
    let s1 := { s with redoStack := s.redoStack.dropLast,
                       undoStack := s.undoStack ++ [a] }
    match a.type with
    | .content =>
      { s1 with
        tabs := s1.tabs.map (fun t =>
          if t.id = a.tabId then { t with content := a.content, isModified := true }
          else t),
        session := match a.content with
                   | some c => if c = "" then s1.session
                               else sessionSet s1.session (tabKey a.tabId) c
                   | none => s1.session }
    | .tab =>
      { s1 with
        tabs := s1.tabs.filter (fun t => decide (¬ t.id = a.tabId)),
        session := sessionRemove s1.session (tabKey a.tabId) }
    | .delete => s1

/-! ## Specification-side helpers (stated over the embedding, used to
phrase the properties; not themselves source functions) -/

/-- All node ids of a forest in depth-first order. -/
def allIds : List FSItem → List String
  | [] => []
  | .mk d cs :: fs =>
    d.id :: ((match cs with | some l => allIds l | none => []) ++ allIds fs)

/-- The ids of a node and all its descendants. -/
def subtreeIds (f : FSItem) : List String := allIds [f]

/-- All node paths of a forest in depth-first order. -/
def allPaths : List FSItem → List String
  | [] => []
  | .mk d cs :: fs =>
    d.path :: ((match cs with | some l => allPaths l | none => []) ++ allPaths fs)

/-- First item with a given `path`, in the same depth-first order in
which `findAndAddToParent` tests paths. -/
def findItemByPath : List FSItem → String → Option FSItem
  | [], _ => none
  | .mk d cs :: fs, p =>
    if d.path = p then some (.mk d cs)
    else
      match cs with
      | some l =>
        match findItemByPath l p with
        | some r => some r
        | none => findItemByPath fs p
      | none => findItemByPath fs p

/-- The path-consistency invariant: every node's stored `path` is its
parent's stored path (the empty string for top-level nodes, so the
root's path is `"/" ++ name` as the store constructs it) joined with its
own `name` by `"/"`. -/
def pathsOkFrom (parentPath : String) : List FSItem → Bool
  | [] => true
  | .mk d cs :: fs =>
    (d.path == parentPath ++ "/" ++ d.name) &&
    (match cs with | some l => pathsOkFrom d.path l | none => true) &&
    pathsOkFrom parentPath fs

/-- Path consistency of a whole forest. -/
def pathConsistent (files : List FSItem) : Bool := pathsOkFrom "" files

/-! ## Concrete scenarios (used by the closed theorems below) -/

/-- An editor state with an empty project tree and no editor activity. -/
def mkInitState (rootName : String) : IDEState :=
  { files := createEmptyFileSystem rootName, selectedFile := none, tabs := [],
    activeTabId := none, undoStack := [], redoStack := [], session := [] }

/-- C1 scenario: create a folder `docs` under the root, a file
`readme.md` inside it, then rename the folder. -/
def c1Step1 : IDEState := (createFile (mkInitState "proj") "/proj" "docs" .folder "idA").1

def c1Step2 : IDEState := (createFile c1Step1 "/proj/docs" "readme.md" .file "idB").1

def c1Step3 : IDEState := renameFile c1Step2 "idA" "documentation"

/-- C2 scenario: folder `src` with a file `App.tsx` inside, next to a
sibling folder `src-backup`; then `src` is renamed to `source`. -/
def c2Step1 : IDEState := (createFile (mkInitState "p") "/p" "src" .folder "f1").1

def c2Step2 : IDEState := (createFile c2Step1 "/p/src" "App.tsx" .file "f2").1

def c2Step3 : IDEState := (createFile c2Step2 "/p" "src-backup" .folder "f3").1

def c2Step4 : IDEState := renameFile c2Step3 "f1" "source"

/-- C3 scenario: a tree whose only paths are `/p` (the root folder) and
`/p/f.txt` (a file). -/
def c3FileNode : FSItem :=
  .mk { id := "ff", name := "f.txt", type := .file, content := some "body",
        language := some "plaintext", path := "/p/f.txt", isOpen := some false,
        isModified := some false, parentId := some "root" } none

def c3State : IDEState :=
  { mkInitState "p" with
    files := [.mk { id := "root", name := "p", type := .folder, content := none,
                    language := none, path := "/p", isOpen := some true,
                    isModified := none, parentId := none } (some [c3FileNode])] }

/-- A sample open tab used by the closed tab-store theorems. -/
def tabA : TabInfo :=
  { id := "a", name := "a.ts", language := "typescript", path := "/p/a.ts",
    isModified := false, content := some "alpha" }

/-- A second sample tab. -/
def tabB : TabInfo :=
  { id := "b", name := "b.md", language := "markdown", path := "/p/b.md",
    isModified := false, content := some "beta" }

/-- A file node backing `tabA`. -/
def fileNodeA : FSItem :=
  .mk { id := "a", name := "a.ts", type := .file, content := some "alpha",
        language := some "typescript", path := "/p/a.ts", isOpen := some false,
        isModified := some false, parentId := some "root" } none

/-- A folder node, for the folder cases of the tab-store theorems. -/
def folderNodeD : FSItem :=
  .mk { id := "d", name := "d", type := .folder, content := none,
        language := none, path := "/p/d", isOpen := some false,
        isModified := none, parentId := some "root" } (some [])

/-- A small combined state: a root with file `a` and folder `d`, the file
open in a tab together with `tabB`, and `b` active. -/
def wsState : IDEState :=
  { files := [.mk { id := "root", name := "p", type := .folder, content := none,
                    language := none, path := "/p", isOpen := some true,
                    isModified := none, parentId := none }
                (some [fileNodeA, folderNodeD])],
    selectedFile := none, tabs := [tabA, tabB], activeTabId := some "b",
    undoStack := [], redoStack := [], session := [] }

/-- `wsState` with the tab for file `a` active. -/
def ws5State : IDEState := { wsState with activeTabId := some "a" }

end Vortexity

/-! ## General lemmas about the embedded operations -/


namespace Vortexity

@[simp] theorem FSItem.data_mk (d : FSData) (cs : Option (List FSItem)) :
    (FSItem.mk d cs).data = d := rfl

@[simp] theorem FSItem.children_mk (d : FSData) (cs : Option (List FSItem)) :
    (FSItem.mk d cs).children = cs := rfl

theorem findItemById_nil (i : String) : findItemById [] i = none := by
  rw [findItemById.eq_def]

theorem findItemById_cons_hit (d : FSData) (cs : Option (List FSItem))
    (fs : List FSItem) (i : String) (hd : d.id = i) :
    findItemById (FSItem.mk d cs :: fs) i = some (FSItem.mk d cs) := by
  rw [findItemById.eq_def]
  simp [hd]

theorem findItemById_cons_some (d : FSData) (l fs : List FSItem) (i : String)
    (hd : ¬ d.id = i) :
    findItemById (FSItem.mk d (some l) :: fs) i
      = (match findItemById l i with
         | some r => some r
         | none => findItemById fs i) := by
  rw [findItemById.eq_def]
  simp [hd]

theorem findItemById_cons_none (d : FSData) (fs : List FSItem) (i : String)
    (hd : ¬ d.id = i) :
    findItemById (FSItem.mk d none :: fs) i = findItemById fs i := by
  rw [findItemById.eq_def]
  simp [hd]

theorem updateContentList_nil (i c : String) : updateContentList i c [] = ([], false) := by
  rw [updateContentList.eq_def]

theorem updateContentList_cons_hit (i c : String) (d : FSData)
    (cs : Option (List FSItem)) (fs : List FSItem)
    (hh : d.id = i ∧ d.type = FileType.file) :
    updateContentList i c (FSItem.mk d cs :: fs)
      = (FSItem.mk { d with
           content := some c,
           isModified := some (decide (¬ d.content = some c)) } cs :: fs, true) := by
  rw [updateContentList.eq_def]
  simp [hh]

theorem updateContentList_cons_children_hit (i c : String) (d : FSData)
    (l fs : List FSItem) (hh : ¬ (d.id = i ∧ d.type = FileType.file))
    (h2 : (updateContentList i c l).2 = true) :
    updateContentList i c (FSItem.mk d (some l) :: fs)
      = (FSItem.mk d (some (updateContentList i c l).1) :: fs, true) := by
  rw [updateContentList.eq_def]
  simp [hh, h2]

theorem updateContentList_cons_children_miss (i c : String) (d : FSData)
    (l fs : List FSItem) (hh : ¬ (d.id = i ∧ d.type = FileType.file))
    (h2 : ¬ (updateContentList i c l).2 = true) :
    updateContentList i c (FSItem.mk d (some l) :: fs)
      = (FSItem.mk d (some l) :: (updateContentList i c fs).1,
         (updateContentList i c fs).2) := by
  rw [updateContentList.eq_def]
  simp [hh, h2]

theorem updateContentList_cons_nochildren (i c : String) (d : FSData)
    (fs : List FSItem) (hh : ¬ (d.id = i ∧ d.type = FileType.file)) :
    updateContentList i c (FSItem.mk d none :: fs)
      = (FSItem.mk d none :: (updateContentList i c fs).1,
         (updateContentList i c fs).2) := by
  rw [updateContentList.eq_def]
  simp [hh]

end Vortexity

namespace Vortexity

theorem updateContentList_cons_hit_fst (i c : String) (d : FSData)
    (cs : Option (List FSItem)) (fs : List FSItem)
    (hh : d.id = i ∧ d.type = FileType.file) :
    (updateContentList i c (FSItem.mk d cs :: fs)).1
      = FSItem.mk { d with
          content := some c,
          isModified := some (decide (¬ d.content = some c)) } cs :: fs := by
  rw [updateContentList_cons_hit i c d cs fs hh]

theorem updateContentList_cons_hit_snd (i c : String) (d : FSData)
    (cs : Option (List FSItem)) (fs : List FSItem)
    (hh : d.id = i ∧ d.type = FileType.file) :
    (updateContentList i c (FSItem.mk d cs :: fs)).2 = true := by
  rw [updateContentList_cons_hit i c d cs fs hh]

theorem updateContentList_cons_children_hit_fst (i c : String) (d : FSData)
    (l fs : List FSItem) (hh : ¬ (d.id = i ∧ d.type = FileType.file))
    (h2 : (updateContentList i c l).2 = true) :
    (updateContentList i c (FSItem.mk d (some l) :: fs)).1
      = FSItem.mk d (some (updateContentList i c l).1) :: fs := by
  rw [updateContentList_cons_children_hit i c d l fs hh h2]

theorem updateContentList_cons_children_hit_snd (i c : String) (d : FSData)
    (l fs : List FSItem) (hh : ¬ (d.id = i ∧ d.type = FileType.file))
    (h2 : (updateContentList i c l).2 = true) :
    (updateContentList i c (FSItem.mk d (some l) :: fs)).2 = true := by
  rw [updateContentList_cons_children_hit i c d l fs hh h2]

theorem updateContentList_cons_children_miss_fst (i c : String) (d : FSData)
    (l fs : List FSItem) (hh : ¬ (d.id = i ∧ d.type = FileType.file))
    (h2 : ¬ (updateContentList i c l).2 = true) :
    (updateContentList i c (FSItem.mk d (some l) :: fs)).1
      = FSItem.mk d (some l) :: (updateContentList i c fs).1 := by
  rw [updateContentList_cons_children_miss i c d l fs hh h2]

theorem updateContentList_cons_children_miss_snd (i c : String) (d : FSData)
    (l fs : List FSItem) (hh : ¬ (d.id = i ∧ d.type = FileType.file))
    (h2 : ¬ (updateContentList i c l).2 = true) :
    (updateContentList i c (FSItem.mk d (some l) :: fs)).2
      = (updateContentList i c fs).2 := by
  rw [updateContentList_cons_children_miss i c d l fs hh h2]

theorem updateContentList_cons_nochildren_fst (i c : String) (d : FSData)
    (fs : List FSItem) (hh : ¬ (d.id = i ∧ d.type = FileType.file)) :
    (updateContentList i c (FSItem.mk d none :: fs)).1
      = FSItem.mk d none :: (updateContentList i c fs).1 := by
  rw [updateContentList_cons_nochildren i c d fs hh]

theorem updateContentList_cons_nochildren_snd (i c : String) (d : FSData)
    (fs : List FSItem) (hh : ¬ (d.id = i ∧ d.type = FileType.file)) :
    (updateContentList i c (FSItem.mk d none :: fs)).2
      = (updateContentList i c fs).2 := by
  rw [updateContentList_cons_nochildren i c d fs hh]

theorem updateContentList_of_find_none (i c : String) (l : List FSItem) :
    findItemById l i = none → updateContentList i c l = (l, false) := by
  induction l using updateContentList.induct i c with
  | case1 => intro _; exact updateContentList_nil i c
  | case2 d cs fs hh =>
    intro h
    rw [findItemById_cons_hit d cs fs i hh.1] at h
    exact absurd h (by simp)
  | case3 d fs hh l r hr ih =>
    intro h
    have hr' : (updateContentList i c l).2 = true := hr
    by_cases hd : d.id = i
    · rw [findItemById_cons_hit d _ fs i hd] at h
      exact absurd h (by simp)
    · rw [findItemById_cons_some d l fs i hd] at h
      rcases hl : findItemById l i with _ | x
      · rw [ih hl] at hr'
        simp at hr'
      · rw [hl] at h
        exact absurd h (by simp)
  | case4 d fs hh l r hr ihl ihr =>
    intro h
    by_cases hd : d.id = i
    · rw [findItemById_cons_hit d _ fs i hd] at h
      exact absurd h (by simp)
    · rw [findItemById_cons_some d l fs i hd] at h
      rcases hl : findItemById l i with _ | x
      · rw [hl] at h
        simp only [] at h
        have hr' : ¬ (updateContentList i c l).2 = true := hr
        rw [updateContentList_cons_children_miss i c d l fs hh hr', ihr h]
      · rw [hl] at h
        exact absurd h (by simp)
  | case5 d fs hh ih =>
    intro h
    by_cases hd : d.id = i
    · rw [findItemById_cons_hit d _ fs i hd] at h
      exact absurd h (by simp)
    · rw [findItemById_cons_none d fs i hd] at h
      rw [updateContentList_cons_nochildren i c d fs hh, ih h]

theorem updateContentList_of_find_file (i c : String) (l : List FSItem) :
    ∀ n, findItemById l i = some n → n.data.type = FileType.file →
    (updateContentList i c l).2 = true ∧
    findItemById (updateContentList i c l).1 i
      = some (FSItem.mk { n.data with
          content := some c,
          isModified := some (decide (¬ n.data.content = some c)) } n.children) := by
  induction l using updateContentList.induct i c with
  | case1 =>
    intro n h _
    rw [findItemById_nil] at h
    exact absurd h (by simp)
  | case2 d cs fs hh =>
    intro n h ht
    rw [findItemById_cons_hit d cs fs i hh.1] at h
    have hn : n = FSItem.mk d cs := by
      simpa using h.symm
    subst hn
    refine ⟨updateContentList_cons_hit_snd i c d cs fs hh, ?_⟩
    rw [updateContentList_cons_hit_fst i c d cs fs hh]
    rw [findItemById_cons_hit { d with
          content := some c,
          isModified := some (decide (¬ d.content = some c)) } cs fs i hh.1]
    simp
  | case3 d fs hh l r hr ih =>
    intro n h ht
    have hr' : (updateContentList i c l).2 = true := hr
    by_cases hd : d.id = i
    · rw [findItemById_cons_hit d _ fs i hd] at h
      have hn : n = FSItem.mk d (some l) := by simpa using h.symm
      subst hn
      simp only [FSItem.data_mk] at ht
      exact absurd ⟨hd, ht⟩ hh
    · rw [findItemById_cons_some d l fs i hd] at h
      rcases hl : findItemById l i with _ | x
      · rw [updateContentList_of_find_none i c l hl] at hr'
        simp at hr'
      · rw [hl] at h
        simp only [Option.some.injEq] at h
        subst h
        have hih := ih x hl ht
        refine ⟨updateContentList_cons_children_hit_snd i c d l fs hh hr', ?_⟩
        rw [updateContentList_cons_children_hit_fst i c d l fs hh hr']
        rw [findItemById_cons_some d _ fs i hd, hih.2]
  | case4 d fs hh l r hr ihl ihr =>
    intro n h ht
    have hr' : ¬ (updateContentList i c l).2 = true := hr
    by_cases hd : d.id = i
    · rw [findItemById_cons_hit d _ fs i hd] at h
      have hn : n = FSItem.mk d (some l) := by simpa using h.symm
      subst hn
      simp only [FSItem.data_mk] at ht
      exact absurd ⟨hd, ht⟩ hh
    · rw [findItemById_cons_some d l fs i hd] at h
      rcases hl : findItemById l i with _ | x
      · rw [hl] at h
        simp only [] at h
        have hih := ihr n h ht
        refine ⟨?_, ?_⟩
        · rw [updateContentList_cons_children_miss_snd i c d l fs hh hr']
          exact hih.1
        · rw [updateContentList_cons_children_miss_fst i c d l fs hh hr']
          rw [findItemById_cons_some d l _ i hd, hl]
          exact hih.2
      · rw [hl] at h
        simp only [Option.some.injEq] at h
        subst h
        exact absurd (ihl x hl ht).1 hr'
  | case5 d fs hh ih =>
    intro n h ht
    by_cases hd : d.id = i
    · rw [findItemById_cons_hit d _ fs i hd] at h
      have hn : n = FSItem.mk d none := by simpa using h.symm
      subst hn
      simp only [FSItem.data_mk] at ht
      exact absurd ⟨hd, ht⟩ hh
    · rw [findItemById_cons_none d fs i hd] at h
      have hih := ih n h ht
      refine ⟨?_, ?_⟩
      · rw [updateContentList_cons_nochildren_snd i c d fs hh]
        exact hih.1
      · rw [updateContentList_cons_nochildren_fst i c d fs hh]
        rw [findItemById_cons_none d _ i hd]
        exact hih.2

end Vortexity

namespace Vortexity

theorem find?_map_setModified (l : List TabInfo) (i : String) (b : Bool) :
    (l.map (fun x => if x.id = i then { x with isModified := b } else x)).find?
      (fun x => x.id == i)
    = (l.find? (fun x => x.id == i)).map (fun x => { x with isModified := b }) := by
  induction l with
  | nil => rfl
  | cons hd tl ih =>
    by_cases h : hd.id = i
    · simp [List.find?_cons, h]
    · simp [List.find?_cons, h, ih]

end Vortexity

namespace Vortexity

theorem allIds_nil : allIds [] = [] := by
  rw [allIds.eq_def]

theorem allIds_cons_some (d : FSData) (l fs : List FSItem) :
    allIds (FSItem.mk d (some l) :: fs) = d.id :: (allIds l ++ allIds fs) := by
  rw [allIds.eq_def]

theorem allIds_cons_none (d : FSData) (fs : List FSItem) :
    allIds (FSItem.mk d none :: fs) = d.id :: allIds fs := by
  rw [allIds.eq_def]
  simp

theorem subtreeIds_mk_some (d : FSData) (l : List FSItem) :
    subtreeIds (FSItem.mk d (some l)) = d.id :: allIds l := by
  rw [subtreeIds, allIds_cons_some, allIds_nil]
  simp

theorem subtreeIds_mk_none (d : FSData) :
    subtreeIds (FSItem.mk d none) = [d.id] := by
  rw [subtreeIds, allIds_cons_none, allIds_nil]

theorem removeItemList_nil (i : String) : removeItemList i [] = ([], false) := by
  rw [removeItemList.eq_def]

theorem removeItemList_cons_hit (i : String) (d : FSData) (cs : Option (List FSItem))
    (fs : List FSItem) (hd : d.id = i) :
    removeItemList i (FSItem.mk d cs :: fs) = (fs, true) := by
  rw [removeItemList.eq_def]
  simp [hd]

theorem removeItemList_cons_children_hit (i : String) (d : FSData) (l fs : List FSItem)
    (hd : ¬ d.id = i) (h2 : (removeItemList i l).2 = true) :
    removeItemList i (FSItem.mk d (some l) :: fs)
      = (FSItem.mk d (some (removeItemList i l).1) :: fs, true) := by
  rw [removeItemList.eq_def]
  simp [hd, h2]

theorem removeItemList_cons_children_miss (i : String) (d : FSData) (l fs : List FSItem)
    (hd : ¬ d.id = i) (h2 : ¬ (removeItemList i l).2 = true) :
    removeItemList i (FSItem.mk d (some l) :: fs)
      = (FSItem.mk d (some l) :: (removeItemList i fs).1, (removeItemList i fs).2) := by
  rw [removeItemList.eq_def]
  simp [hd, h2]

theorem removeItemList_cons_nochildren (i : String) (d : FSData) (fs : List FSItem)
    (hd : ¬ d.id = i) :
    removeItemList i (FSItem.mk d none :: fs)
      = (FSItem.mk d none :: (removeItemList i fs).1, (removeItemList i fs).2) := by
  rw [removeItemList.eq_def]
  simp [hd]

theorem removeItemList_of_find_none (i : String) (l : List FSItem) :
    findItemById l i = none → removeItemList i l = (l, false) := by
  induction l using removeItemList.induct i with
  | case1 => intro _; exact removeItemList_nil i
  | case2 d cs fs hd =>
    intro h
    rw [findItemById_cons_hit d cs fs i hd] at h
    exact absurd h (by simp)
  | case3 d fs hd l r hr ih =>
    intro h
    have hr' : (removeItemList i l).2 = true := hr
    rw [findItemById_cons_some d l fs i hd] at h
    rcases hl : findItemById l i with _ | x
    · rw [ih hl] at hr'
      simp at hr'
    · rw [hl] at h
      exact absurd h (by simp)
  | case4 d fs hd l r hr ihl ihr =>
    intro h
    rw [findItemById_cons_some d l fs i hd] at h
    rcases hl : findItemById l i with _ | x
    · rw [hl] at h
      simp only [] at h
      have hr' : ¬ (removeItemList i l).2 = true := hr
      rw [removeItemList_cons_children_miss i d l fs hd hr', ihr h]
    · rw [hl] at h
      exact absurd h (by simp)
  | case5 d fs hd ih =>
    intro h
    rw [findItemById_cons_none d fs i hd] at h
    rw [removeItemList_cons_nochildren i d fs hd, ih h]

theorem subtreeIds_subset_of_find :
    ∀ (l : List FSItem) (i : String) (n : FSItem), findItemById l i = some n →
      ∀ x, x ∈ subtreeIds n → x ∈ allIds l := by
  intro l i
  induction l, i using findItemById.induct with
  | case1 i =>
    intro n h
    rw [findItemById_nil] at h
    exact absurd h (by simp)
  | case2 d cs fs =>
    intro n h x hx
    rw [findItemById_cons_hit d cs fs d.id rfl] at h
    have hn : n = FSItem.mk d cs := by simpa using h.symm
    subst hn
    rcases cs with _ | l
    · rw [subtreeIds_mk_none] at hx
      rw [allIds_cons_none]
      simp only [List.mem_singleton] at hx
      simp [hx]
    · rw [subtreeIds_mk_some] at hx
      rw [allIds_cons_some]
      rcases List.mem_cons.mp hx with h1 | h1
      · simp [h1]
      · simp [List.mem_append, h1]
  | case3 d fs i hd l x hl ih =>
    intro n h y hy
    rw [findItemById_cons_some d l fs _ hd, hl] at h
    simp only [Option.some.injEq] at h
    subst h
    rw [allIds_cons_some]
    have := ih x hl y hy
    simp [List.mem_append, this]
  | case4 d fs i hd l hl ihl ihr =>
    intro n h y hy
    rw [findItemById_cons_some d l fs _ hd, hl] at h
    simp only [] at h
    rw [allIds_cons_some]
    have := ihr n h y hy
    simp [List.mem_append, this]
  | case5 d fs i hd ih =>
    intro n h y hy
    rw [findItemById_cons_none d fs _ hd] at h
    rw [allIds_cons_none]
    have := ih n h y hy
    simp [this]

end Vortexity

namespace Vortexity

theorem filter_not_mem_eq_self (a sub : List String) (h : ∀ x ∈ a, ¬ x ∈ sub) :
    a.filter (fun x => decide (¬ x ∈ sub)) = a := by
  rw [List.filter_eq_self]
  intro x hx
  simpa using h x hx

theorem filter_all_mem_eq_nil (a sub : List String) (h : ∀ x ∈ a, x ∈ sub) :
    a.filter (fun x => decide (¬ x ∈ sub)) = [] := by
  rw [List.filter_eq_nil_iff]
  intro x hx
  simpa using h x hx

theorem removeItemList_of_find_some :
    ∀ (l : List FSItem) (i : String) (n : FSItem), (allIds l).Nodup →
      findItemById l i = some n →
      (removeItemList i l).2 = true ∧
      allIds (removeItemList i l).1
        = (allIds l).filter (fun x => decide (¬ x ∈ subtreeIds n)) := by
  intro l i
  induction l using removeItemList.induct i with
  | case1 =>
    intro n _ h
    rw [findItemById_nil] at h
    exact absurd h (by simp)
  | case2 d cs fs hd =>
    intro n hnd h
    rw [findItemById_cons_hit d cs fs i hd] at h
    have hn : n = FSItem.mk d cs := by simpa using h.symm
    subst hn
    rw [removeItemList_cons_hit i d cs fs hd]
    refine ⟨rfl, ?_⟩
    rcases cs with _ | l
    · rw [allIds_cons_none] at hnd ⊢
      rw [subtreeIds_mk_none]
      rw [List.nodup_cons] at hnd
      rw [List.filter_cons]
      simp only [decide_eq_true_eq]
      rw [if_neg (by simp)]
      rw [filter_not_mem_eq_self (allIds fs) [d.id]
        (fun x hx hx2 => by
          rw [List.mem_singleton] at hx2
          subst hx2
          exact hnd.1 hx)]
    · rw [allIds_cons_some] at hnd ⊢
      rw [subtreeIds_mk_some]
      rw [List.nodup_cons, List.nodup_append] at hnd
      rw [List.filter_cons]
      simp only [decide_eq_true_eq]
      rw [if_neg (by simp)]
      rw [List.filter_append]
      rw [filter_all_mem_eq_nil (allIds l) (d.id :: allIds l)
        (fun x hx => by simp [hx])]
      rw [filter_not_mem_eq_self (allIds fs) (d.id :: allIds l)
        (fun x hx hx2 => by
          rcases List.mem_cons.mp hx2 with h1 | h1
          · subst h1
            exact hnd.1 (List.mem_append.mpr (Or.inr hx))
          · exact hnd.2.2.2 h1 hx)]
      simp
  | case3 d fs hd l r hr ih =>
    intro n hnd h
    have hr' : (removeItemList i l).2 = true := hr
    rw [findItemById_cons_some d l fs i hd] at h
    rw [allIds_cons_some] at hnd
    rw [List.nodup_cons, List.nodup_append] at hnd
    rcases hl : findItemById l i with _ | x
    · rw [removeItemList_of_find_none i l hl] at hr'
      simp at hr'
    · rw [hl] at h
      simp only [Option.some.injEq] at h
      subst h
      have hsub : ∀ y, y ∈ subtreeIds x → y ∈ allIds l :=
        subtreeIds_subset_of_find l i x hl
      have hih := ih x hnd.2.1 hl
      rw [removeItemList_cons_children_hit i d l fs hd hr']
      refine ⟨rfl, ?_⟩
      rw [allIds_cons_some, hih.2]
      rw [allIds_cons_some, List.filter_cons, List.filter_append]
      have hdpred : ¬ d.id ∈ subtreeIds x := fun hmem =>
        hnd.1 (List.mem_append.mpr (Or.inl (hsub d.id hmem)))
      simp only [decide_eq_true_eq]
      rw [if_pos hdpred]
      rw [filter_not_mem_eq_self (allIds fs) (subtreeIds x)
        (fun y hy hmem => hnd.2.2.2 (hsub y hmem) hy)]
  | case4 d fs hd l r hr ihl ihr =>
    intro n hnd h
    have hr' : ¬ (removeItemList i l).2 = true := hr
    rw [findItemById_cons_some d l fs i hd] at h
    rw [allIds_cons_some] at hnd
    rw [List.nodup_cons, List.nodup_append] at hnd
    rcases hl : findItemById l i with _ | x
    · rw [hl] at h
      simp only [] at h
      have hsub : ∀ y, y ∈ subtreeIds n → y ∈ allIds fs :=
        subtreeIds_subset_of_find fs i n h
      have hih := ihr n hnd.2.2.1 h
      rw [removeItemList_cons_children_miss i d l fs hd hr']
      refine ⟨hih.1, ?_⟩
      rw [allIds_cons_some, hih.2]
      rw [allIds_cons_some, List.filter_cons, List.filter_append]
      have hdpred : ¬ d.id ∈ subtreeIds n := fun hmem =>
        hnd.1 (List.mem_append.mpr (Or.inr (hsub d.id hmem)))
      simp only [decide_eq_true_eq]
      rw [if_pos hdpred]
      rw [filter_not_mem_eq_self (allIds l) (subtreeIds n)
        (fun y hy hmem => hnd.2.2.2 hy (hsub y hmem))]
    · rw [hl] at h
      simp only [Option.some.injEq] at h
      subst h
      exact absurd (ihl x hnd.2.1 hl).1 hr'
  | case5 d fs hd ih =>
    intro n hnd h
    rw [findItemById_cons_none d fs i hd] at h
    rw [allIds_cons_none] at hnd
    rw [List.nodup_cons] at hnd
    have hsub : ∀ y, y ∈ subtreeIds n → y ∈ allIds fs :=
      subtreeIds_subset_of_find fs i n h
    have hih := ih n hnd.2 h
    rw [removeItemList_cons_nochildren i d fs hd]
    refine ⟨hih.1, ?_⟩
    rw [allIds_cons_none, hih.2]
    rw [allIds_cons_none, List.filter_cons]
    have hdpred : ¬ d.id ∈ subtreeIds n := fun hmem => hnd.1 (hsub d.id hmem)
    simp only [decide_eq_true_eq]
    rw [if_pos hdpred]

end Vortexity

namespace Vortexity

theorem allPaths_nil : allPaths [] = [] := by
  rw [allPaths.eq_def]

theorem allPaths_cons_some (d : FSData) (l fs : List FSItem) :
    allPaths (FSItem.mk d (some l) :: fs) = d.path :: (allPaths l ++ allPaths fs) := by
  rw [allPaths.eq_def]

theorem allPaths_cons_none (d : FSData) (fs : List FSItem) :
    allPaths (FSItem.mk d none :: fs) = d.path :: allPaths fs := by
  rw [allPaths.eq_def]
  simp

theorem findItemByPath_nil (p : String) : findItemByPath [] p = none := by
  rw [findItemByPath.eq_def]

theorem findItemByPath_cons_hit (d : FSData) (cs : Option (List FSItem))
    (fs : List FSItem) (p : String) (hd : d.path = p) :
    findItemByPath (FSItem.mk d cs :: fs) p = some (FSItem.mk d cs) := by
  rw [findItemByPath.eq_def]
  simp [hd]

theorem findItemByPath_cons_some (d : FSData) (l fs : List FSItem) (p : String)
    (hd : ¬ d.path = p) :
    findItemByPath (FSItem.mk d (some l) :: fs) p
      = (match findItemByPath l p with
         | some r => some r
         | none => findItemByPath fs p) := by
  rw [findItemByPath.eq_def]
  simp [hd]

theorem findItemByPath_cons_none (d : FSData) (fs : List FSItem) (p : String)
    (hd : ¬ d.path = p) :
    findItemByPath (FSItem.mk d none :: fs) p = findItemByPath fs p := by
  rw [findItemByPath.eq_def]
  simp [hd]

theorem createFileList_nil (pp nm : String) (ty : FileType) (nid : String) :
    createFileList pp nm ty nid [] = ([], false) := by
  rw [createFileList.eq_def]

theorem createFileList_cons_hit (pp nm : String) (ty : FileType) (nid : String)
    (d : FSData) (cs : Option (List FSItem)) (fs : List FSItem)
    (hp : d.path = pp) :
    createFileList pp nm ty nid (FSItem.mk d cs :: fs)
      = (FSItem.mk d (some ((cs.getD []) ++ [mkNewItem pp nm ty nid d.id])) :: fs,
         true) := by
  rw [createFileList.eq_def]
  simp [hp]

theorem createFileList_cons_children_hit (pp nm : String) (ty : FileType)
    (nid : String) (d : FSData) (l fs : List FSItem) (hp : ¬ d.path = pp)
    (h2 : (createFileList pp nm ty nid l).2 = true) :
    createFileList pp nm ty nid (FSItem.mk d (some l) :: fs)
      = (FSItem.mk d (some (createFileList pp nm ty nid l).1) :: fs, true) := by
  rw [createFileList.eq_def]
  simp [hp, h2]

theorem createFileList_cons_children_miss (pp nm : String) (ty : FileType)
    (nid : String) (d : FSData) (l fs : List FSItem) (hp : ¬ d.path = pp)
    (h2 : ¬ (createFileList pp nm ty nid l).2 = true) :
    createFileList pp nm ty nid (FSItem.mk d (some l) :: fs)
      = (FSItem.mk d (some l) :: (createFileList pp nm ty nid fs).1,
         (createFileList pp nm ty nid fs).2) := by
  rw [createFileList.eq_def]
  simp [hp, h2]

theorem createFileList_cons_nochildren (pp nm : String) (ty : FileType)
    (nid : String) (d : FSData) (fs : List FSItem) (hp : ¬ d.path = pp) :
    createFileList pp nm ty nid (FSItem.mk d none :: fs)
      = (FSItem.mk d none :: (createFileList pp nm ty nid fs).1,
         (createFileList pp nm ty nid fs).2) := by
  rw [createFileList.eq_def]
  simp [hp]

theorem findItemByPath_of_not_mem_allPaths :
    ∀ (l : List FSItem) (p : String), ¬ p ∈ allPaths l → findItemByPath l p = none := by
  intro l p
  induction l, p using findItemByPath.induct with
  | case1 p =>
    intro _
    exact findItemByPath_nil p
  | case2 d cs fs =>
    intro h
    exfalso
    apply h
    rcases cs with _ | l
    · rw [allPaths_cons_none]
      simp
    · rw [allPaths_cons_some]
      simp
  | case3 d fs p hd l x hl ih =>
    intro h
    rw [allPaths_cons_some] at h
    simp only [List.mem_cons, List.mem_append, not_or] at h
    have := ih h.2.1
    rw [hl] at this
    exact absurd this (by simp)
  | case4 d fs p hd l hl ihl ihr =>
    intro h
    rw [allPaths_cons_some] at h
    simp only [List.mem_cons, List.mem_append, not_or] at h
    rw [findItemByPath_cons_some d l fs p hd, hl]
    exact ihr h.2.2
  | case5 d fs p hd ih =>
    intro h
    rw [allPaths_cons_none] at h
    simp only [List.mem_cons, not_or] at h
    rw [findItemByPath_cons_none d fs p hd]
    exact ih h.2

theorem createFileList_of_findPath_none (pp nm : String) (ty : FileType)
    (nid : String) (l : List FSItem) :
    findItemByPath l pp = none → createFileList pp nm ty nid l = (l, false) := by
  induction l using createFileList.induct pp nm ty nid with
  | case1 => intro _; exact createFileList_nil pp nm ty nid
  | case2 d cs fs hp =>
    intro h
    rw [findItemByPath_cons_hit d cs fs pp hp] at h
    exact absurd h (by simp)
  | case3 d fs hp l r hr ih =>
    intro h
    have hr' : (createFileList pp nm ty nid l).2 = true := hr
    rw [findItemByPath_cons_some d l fs pp hp] at h
    rcases hl : findItemByPath l pp with _ | x
    · rw [ih hl] at hr'
      simp at hr'
    · rw [hl] at h
      exact absurd h (by simp)
  | case4 d fs hp l r hr ihl ihr =>
    intro h
    rw [findItemByPath_cons_some d l fs pp hp] at h
    rcases hl : findItemByPath l pp with _ | x
    · rw [hl] at h
      simp only [] at h
      have hr' : ¬ (createFileList pp nm ty nid l).2 = true := hr
      rw [createFileList_cons_children_miss pp nm ty nid d l fs hp hr', ihr h]
    · rw [hl] at h
      exact absurd h (by simp)
  | case5 d fs hp ih =>
    intro h
    rw [findItemByPath_cons_none d fs pp hp] at h
    rw [createFileList_cons_nochildren pp nm ty nid d fs hp, ih h]

theorem createFileList_of_findPath_some (pp nm : String) (ty : FileType)
    (nid : String) (l : List FSItem) :
    ∀ p, findItemByPath l pp = some p →
    (createFileList pp nm ty nid l).2 = true ∧
    findItemByPath (createFileList pp nm ty nid l).1 pp
      = some (FSItem.mk p.data
          (some ((p.children.getD []) ++ [mkNewItem pp nm ty nid p.data.id]))) := by
  induction l using createFileList.induct pp nm ty nid with
  | case1 =>
    intro p h
    rw [findItemByPath_nil] at h
    exact absurd h (by simp)
  | case2 d cs fs hp =>
    intro p h
    rw [findItemByPath_cons_hit d cs fs pp hp] at h
    have hn : p = FSItem.mk d cs := by simpa using h.symm
    subst hn
    rw [createFileList_cons_hit pp nm ty nid d cs fs hp]
    refine ⟨rfl, ?_⟩
    rw [findItemByPath_cons_hit d _ fs pp hp]
    simp
  | case3 d fs hp l r hr ih =>
    intro p h
    have hr' : (createFileList pp nm ty nid l).2 = true := hr
    rw [findItemByPath_cons_some d l fs pp hp] at h
    rcases hl : findItemByPath l pp with _ | x
    · rw [createFileList_of_findPath_none pp nm ty nid l hl] at hr'
      simp at hr'
    · rw [hl] at h
      simp only [Option.some.injEq] at h
      subst h
      have hih := ih x hl
      rw [createFileList_cons_children_hit pp nm ty nid d l fs hp hr']
      refine ⟨rfl, ?_⟩
      rw [findItemByPath_cons_some d _ fs pp hp, hih.2]
  | case4 d fs hp l r hr ihl ihr =>
    intro p h
    have hr' : ¬ (createFileList pp nm ty nid l).2 = true := hr
    rw [findItemByPath_cons_some d l fs pp hp] at h
    rcases hl : findItemByPath l pp with _ | x
    · rw [hl] at h
      simp only [] at h
      have hih := ihr p h
      rw [createFileList_cons_children_miss pp nm ty nid d l fs hp hr']
      refine ⟨hih.1, ?_⟩
      rw [findItemByPath_cons_some d l _ pp hp, hl]
      exact hih.2
    · rw [hl] at h
      simp only [Option.some.injEq] at h
      subst h
      exact absurd (ihl x hl).1 hr'
  | case5 d fs hp ih =>
    intro p h
    rw [findItemByPath_cons_none d fs pp hp] at h
    have hih := ih p h
    rw [createFileList_cons_nochildren pp nm ty nid d fs hp]
    refine ⟨hih.1, ?_⟩
    rw [findItemByPath_cons_none d _ pp hp]
    exact hih.2

end Vortexity

namespace Vortexity

theorem find?_map_setContent (l : List TabInfo) (i : String) (c : Option String) (b : Bool) :
    (l.map (fun x => if x.id = i then { x with content := c, isModified := b } else x)).find?
      (fun x => x.id == i)
    = (l.find? (fun x => x.id == i)).map
        (fun x => { x with content := c, isModified := b }) := by
  induction l with
  | nil => rfl
  | cons hd tl ih =>
    by_cases h : hd.id = i
    · simp [List.find?_cons, h]
    · simp [List.find?_cons, h, ih]

theorem map_ite_id_of_forall_ne (l : List TabInfo) (i : String)
    (g : TabInfo → TabInfo) (h : ∀ x ∈ l, ¬ x.id = i) :
    l.map (fun x => if x.id = i then g x else x) = l := by
  induction l with
  | nil => rfl
  | cons hd tl ih =>
    have h1 := h hd (by simp)
    have h2 : ∀ x ∈ tl, ¬ x.id = i := fun x hx => h x (by simp [hx])
    simp [h1, ih h2]

theorem jsSpliceInsert_perm {α : Type} (l : List α) (i : Nat) (x : α) :
    (jsSpliceInsert l i x).Perm (x :: l) := by
  have h : (l.take i ++ x :: l.drop i).Perm (x :: (l.take i ++ l.drop i)) :=
    List.perm_middle
  simpa [jsSpliceInsert, List.take_append_drop] using h

/-! ## The claims -/

/-- C1: the spec claims that after every sequence of create/rename/move
operations each node's stored `path` equals the "/"-joined names of its
ancestors. The code violates this: in the concrete run below, creating
folder `/proj/docs` and file `/proj/docs/readme.md` yields a
path-consistent tree, but renaming the folder to `documentation` leaves
the file's stored path at `/proj/docs/readme.md` while the folder's own
path becomes `/proj/documentation` (the source computes the old prefix
for the descendant rewrite only after overwriting `item.path`, so the
rewrite is the identity). -/
theorem claim_C1_rename_breaks_path_consistency :
    pathConsistent c1Step2.files = true ∧
    pathConsistent c1Step3.files = false ∧
    (findItemById c1Step3.files "idA").map (fun f => f.data.path)
      = some "/proj/documentation" ∧
    (findItemById c1Step3.files "idB").map (fun f => f.data.path)
      = some "/proj/docs/readme.md" := by
  refine ⟨?_, ?_, ?_, ?_⟩ <;>
    simp [c1Step3, c1Step2, c1Step1, mkInitState, renameFile, renameItemList,
      createFile, createEmptyFileSystem, createFileList, mkNewItem,
      getLanguageFromExtension, toLowerStr, splitStr, splitChars, joinSlash,
      replaceDescendantPaths, replaceFirst, replaceFirstChars, pathConsistent,
      pathsOkFrom, findItemById]

/-- C2: the spec claims `renameFile` rewrites every descendant's path via
a true prefix replace, and that a sibling sharing a text fragment keeps
its path. In the concrete run below (folder `src` containing `App.tsx`,
sibling `src-backup`, rename `src` → `source`): the sibling's path is
indeed untouched, but the descendant's path is NOT rewritten at all —
`App.tsx` keeps the stale path `/p/src/App.tsx` instead of
`/p/source/App.tsx`, because the source derives the old-path prefix from
the already-updated `item.path`/`item.name`. -/
theorem claim_C2_rename_descendant_paths_stale :
    (findItemById c2Step4.files "f1").map (fun f => f.data.path)
      = some "/p/source" ∧
    (findItemById c2Step4.files "f2").map (fun f => f.data.path)
      = some "/p/src/App.tsx" ∧
    ¬ (findItemById c2Step4.files "f2").map (fun f => f.data.path)
      = some "/p/source/App.tsx" ∧
    (findItemById c2Step4.files "f3").map (fun f => f.data.path)
      = some "/p/src-backup" := by
  refine ⟨?_, ?_, ?_, ?_⟩ <;>
    simp [c2Step4, c2Step3, c2Step2, c2Step1, mkInitState, renameFile,
      renameItemList, createFile, createEmptyFileSystem, createFileList,
      mkNewItem, getLanguageFromExtension, toLowerStr, splitStr, splitChars,
      joinSlash, replaceDescendantPaths, replaceFirst, replaceFirstChars,
      findItemById]

/-- C3 counterexample: the claim says `createFile` returns `undefined`
when no folder's path equals `parentPath`. At the concrete inputs below
it instead returns the fresh id (`some "n1"`, never `none`) — the tree
is indeed unchanged for a path matching nothing — and for a `parentPath`
equal to a FILE's path (hence matching no folder's path) the tree IS
changed: the new node is attached under the file. -/
theorem claim_C3_counterexample :
    (createFile c3State "/nope" "x.ts" .file "n1").2 = some "n1" ∧
    ¬ (createFile c3State "/nope" "x.ts" .file "n1").2 = none ∧
    (createFile c3State "/nope" "x.ts" .file "n1").1.files = c3State.files ∧
    findItemById c3State.files "n2" = none ∧
    (findItemById (createFile c3State "/p/f.txt" "y.ts" .file "n2").1.files "n2").isSome
      = true := by
  refine ⟨rfl, by simp [createFile], ?_, ?_, ?_⟩
  · simp [c3State, c3FileNode, mkInitState, createFile, createEmptyFileSystem,
      createFileList, mkNewItem, getLanguageFromExtension, toLowerStr,
      splitStr, splitChars, findItemById]
  · simp [c3State, c3FileNode, mkInitState, createFile, createEmptyFileSystem,
      createFileList, mkNewItem, getLanguageFromExtension, toLowerStr,
      splitStr, splitChars, findItemById]
  · simp [c3State, c3FileNode, mkInitState, createFile, createEmptyFileSystem,
      createFileList, mkNewItem, getLanguageFromExtension, toLowerStr,
      splitStr, splitChars, findItemById]

/-- C3 (amended): for every `parentPath` that matches no node's path at
all, `createFile` returns the fresh id (not `undefined`) and leaves the
tree unchanged (silent no-op, no crash); when some node's path equals
`parentPath` (the code never checks that it is a folder), it returns the
fresh id and appends the new node to the children of the first such node
in depth-first order. -/
theorem claim_C3_createFile_amended (s : IDEState) (pp nm : String)
    (ty : FileType) (nid : String) :
    (¬ pp ∈ allPaths s.files →
      (createFile s pp nm ty nid).2 = some nid ∧
      (createFile s pp nm ty nid).1.files = s.files) ∧
    (∀ p, findItemByPath s.files pp = some p →
      (createFile s pp nm ty nid).2 = some nid ∧
      findItemByPath (createFile s pp nm ty nid).1.files pp
        = some (FSItem.mk p.data
            (some ((p.children.getD []) ++ [mkNewItem pp nm ty nid p.data.id])))) := by
  constructor
  · intro h
    refine ⟨rfl, ?_⟩
    show (createFileList pp nm ty nid s.files).1 = s.files
    rw [createFileList_of_findPath_none pp nm ty nid s.files
      (findItemByPath_of_not_mem_allPaths s.files pp h)]
  · intro p hp
    refine ⟨rfl, ?_⟩
    show findItemByPath (createFileList pp nm ty nid s.files).1 pp = _
    exact (createFileList_of_findPath_some pp nm ty nid s.files p hp).2

/-- C3 witness: the amended statement applied at concrete inputs. -/
theorem claim_C3_witness :
    ((createFile c3State "/nowhere" "z.ts" FileType.file "n9").2 = some "n9" ∧
     (createFile c3State "/nowhere" "z.ts" FileType.file "n9").1.files = c3State.files) ∧
    ((createFile c3State "/p/f.txt" "w.ts" FileType.file "n8").2 = some "n8" ∧
     findItemByPath (createFile c3State "/p/f.txt" "w.ts" FileType.file "n8").1.files "/p/f.txt"
       = some (FSItem.mk c3FileNode.data
           (some ((c3FileNode.children.getD [])
             ++ [mkNewItem "/p/f.txt" "w.ts" FileType.file "n8" c3FileNode.data.id])))) :=
  ⟨(claim_C3_createFile_amended c3State "/nowhere" "z.ts" FileType.file "n9").1
     (by simp [c3State, c3FileNode, mkInitState, createEmptyFileSystem, allPaths]),
   (claim_C3_createFile_amended c3State "/p/f.txt" "w.ts" FileType.file "n8").2
     c3FileNode
     (by simp [c3State, c3FileNode, mkInitState, createEmptyFileSystem, findItemByPath])⟩

/-- C4: for a tab present in the open-tab list (with a defined buffer),
`updateTabContent` followed by `undoLastAction` restores the exact
previous buffer and sets `isModified = true`; a subsequent
`redoLastAction` restores the newer content, again with
`isModified = true`. -/
theorem claim_C4_update_undo_redo (s : IDEState) (tabId c1 c2 : String) (t : TabInfo)
    (hf : s.tabs.find? (fun x => x.id == tabId) = some t)
    (hc : t.content = some c1) :
    (((undoLastAction (updateTabContent s tabId c2)).tabs.find?
        (fun x => x.id == tabId)).map (fun x => (x.content, x.isModified))
      = some (some c1, true)) ∧
    (((redoLastAction (undoLastAction (updateTabContent s tabId c2))).tabs.find?
        (fun x => x.id == tabId)).map (fun x => (x.content, x.isModified))
      = some (some c2, true)) := by
  have hg1 : (updateTabContent s tabId c2).tabs
      = s.tabs.map (fun x =>
          if x.id = tabId then { x with content := some c2, isModified := true }
          else x) := by
    simp [updateTabContent, hf]
  have hg1u : (updateTabContent s tabId c2).undoStack
      = s.undoStack ++ [⟨.content, tabId, some c2, some c1, none⟩] := by
    simp [updateTabContent, hf, hc]
  have hg1r : (updateTabContent s tabId c2).redoStack = [] := by
    simp [updateTabContent, hf]
  have hlast : (updateTabContent s tabId c2).undoStack.getLast?
      = some ⟨.content, tabId, some c2, some c1, none⟩ := by
    rw [hg1u]
    exact List.getLast?_concat _
  have h2tabs : (undoLastAction (updateTabContent s tabId c2)).tabs
      = (updateTabContent s tabId c2).tabs.map (fun x =>
          if x.id = tabId then { x with content := some c1, isModified := true }
          else x) := by
    simp [undoLastAction, hlast]
  have h2redo : (undoLastAction (updateTabContent s tabId c2)).redoStack
      = [⟨.content, tabId, some c2, some c1, none⟩] := by
    simp [undoLastAction, hlast, hg1r]
  have hrlast : (undoLastAction (updateTabContent s tabId c2)).redoStack.getLast?
      = some ⟨.content, tabId, some c2, some c1, none⟩ := by
    rw [h2redo]
    rfl
  have h3tabs : (redoLastAction (undoLastAction (updateTabContent s tabId c2))).tabs
      = (undoLastAction (updateTabContent s tabId c2)).tabs.map (fun x =>
          if x.id = tabId then { x with content := some c2, isModified := true }
          else x) := by
    simp [redoLastAction, hrlast]
  constructor
  · rw [h2tabs, hg1, find?_map_setContent, find?_map_setContent, hf]
    simp
  · rw [h3tabs, h2tabs, hg1, find?_map_setContent, find?_map_setContent,
        find?_map_setContent, hf]
    simp

/-- C4 witness: the round trip at a concrete state. -/
theorem claim_C4_witness :
    (((undoLastAction (updateTabContent wsState "a" "v2")).tabs.find?
        (fun x => x.id == "a")).map (fun x => (x.content, x.isModified))
      = some (some "alpha", true)) ∧
    (((redoLastAction (undoLastAction (updateTabContent wsState "a" "v2"))).tabs.find?
        (fun x => x.id == "a")).map (fun x => (x.content, x.isModified))
      = some (some "v2", true)) :=
  claim_C4_update_undo_redo wsState "a" "alpha" "v2" tabA (by rfl) rfl

/-- C5: with no active tab (`activeTabId` null, or the falsy empty
string, which the guard `if (!activeTabId) return` also treats as
no-tab) `saveActiveFile` is the identity on the whole state; with a
truthy active tab id naming a file node, it makes the tree node's
content equal to the tab buffer
(`getTabContent tabId = getNodeById(tabId).content`) and clears the
tab's `isModified`. -/
theorem claim_C5_saveActiveFile (s : IDEState) :
    (s.activeTabId = none → saveActiveFile s = s) ∧
    (s.activeTabId = some "" → saveActiveFile s = s) ∧
    (∀ tid t c n, s.activeTabId = some tid → ¬ tid = "" →
      s.tabs.find? (fun x => x.id == tid) = some t → t.content = some c →
      findItemById s.files tid = some n → n.data.type = FileType.file →
      getTabContent (saveActiveFile s) tid = c ∧
      ((findItemById (saveActiveFile s).files tid).bind (fun x => x.data.content))
        = some (getTabContent (saveActiveFile s) tid) ∧
      (((saveActiveFile s).tabs.find? (fun x => x.id == tid)).map (fun x => x.isModified))
        = some false) := by
  refine ⟨?_, ?_, ?_⟩
  · intro h
    simp [saveActiveFile, h]
  · intro h
    simp [saveActiveFile, h]
  · intro tid t c n ha h0 hf hc hn ht
    have hgc : getTabContent s tid = c := by
      simp [getTabContent, hf, hc]
    have htabs : (saveActiveFile s).tabs
        = s.tabs.map (fun x => if x.id = tid then { x with isModified := false } else x) := by
      simp [saveActiveFile, ha, h0]
    have hfiles : (saveActiveFile s).files = (updateContentList tid c s.files).1 := by
      simp [saveActiveFile, ha, h0, hgc]
    have hfind : (saveActiveFile s).tabs.find? (fun x => x.id == tid)
        = some { t with isModified := false } := by
      rw [htabs, find?_map_setModified, hf]
      rfl
    have hg2 : getTabContent (saveActiveFile s) tid = c := by
      simp [getTabContent, hfind, hc]
    refine ⟨hg2, ?_, ?_⟩
    · rw [hfiles, hg2]
      have hu := updateContentList_of_find_file tid c s.files n hn ht
      rw [hu.2]
      simp
    · rw [hfind]
      rfl

/-- C5 witness: the null and empty-string no-ops and a concrete save. -/
theorem claim_C5_witness :
    (saveActiveFile (mkInitState "w") = mkInitState "w") ∧
    (saveActiveFile { wsState with activeTabId := some "" }
      = { wsState with activeTabId := some "" }) ∧
    (getTabContent (saveActiveFile ws5State) "a" = "alpha" ∧
     ((findItemById (saveActiveFile ws5State).files "a").bind (fun x => x.data.content))
       = some (getTabContent (saveActiveFile ws5State) "a") ∧
     (((saveActiveFile ws5State).tabs.find? (fun x => x.id == "a")).map (fun x => x.isModified))
       = some false) :=
  ⟨(claim_C5_saveActiveFile (mkInitState "w")).1 rfl,
   (claim_C5_saveActiveFile { wsState with activeTabId := some "" }).2.1 rfl,
   (claim_C5_saveActiveFile ws5State).2.2 "a" tabA "alpha" fileNodeA rfl (by decide)
     rfl rfl (by simp [ws5State, wsState, findItemById, fileNodeA, folderNodeD]) rfl⟩

/-- C6: `openTab` is idempotent. When the id names a file node of the
tree and a tab with that id is already open, `openTab` leaves the tab
list unchanged (no second tab) while still activating the tab and
propagating the selection to the tree store; when the id is missing from
the tree or names a folder, no tab is created. -/
theorem claim_C6_openTab_idempotent (s : IDEState) (fid : String) :
    (∀ f, findItemById s.files fid = some f → f.data.type = FileType.file →
      fid ∈ s.tabs.map (fun t => t.id) →
      (openTab s fid).tabs = s.tabs ∧
      (openTab s fid).activeTabId = some fid ∧
      (openTab s fid).selectedFile = some fid) ∧
    ((findItemById s.files fid = none ∨
      (∃ f, findItemById s.files fid = some f ∧ f.data.type = FileType.folder)) →
      (openTab s fid).tabs = s.tabs) := by
  constructor
  · intro f hf ht hmem
    have hany : s.tabs.any (fun t => t.id == fid) = true := by
      simp only [List.any_eq_true]
      rcases List.mem_map.mp hmem with ⟨t, htmem, hid⟩
      exact ⟨t, htmem, by simp [hid]⟩
    simp [openTab, hf, ht, hany]
  · rintro (hf | ⟨f, hf, hty⟩)
    · simp [openTab, hf]
    · simp [openTab, hf, hty]

/-- C6 witness: re-opening the already-open file `a` and opening the
folder id `d` at a concrete state. -/
theorem claim_C6_witness :
    ((openTab wsState "a").tabs = wsState.tabs ∧
     (openTab wsState "a").activeTabId = some "a" ∧
     (openTab wsState "a").selectedFile = some "a") ∧
    (openTab wsState "d").tabs = wsState.tabs :=
  ⟨(claim_C6_openTab_idempotent wsState "a").1 fileNodeA
      (by simp [wsState, findItemById, fileNodeA, folderNodeD])
      rfl (by decide),
   (claim_C6_openTab_idempotent wsState "d").2
      (Or.inr ⟨folderNodeD, by simp [wsState, findItemById, fileNodeA, folderNodeD], rfl⟩)⟩

/-- C7: `deleteFile "root"` is rejected (the tree is unchanged); for a
non-root id present in a tree with unique node ids, `deleteFile` removes
exactly that node's subtree (the surviving ids are the original ids
minus the subtree's ids, in order), and the selection is cleared exactly
when the deleted id was selected. -/
theorem claim_C7_deleteFile (s : IDEState) :
    ((deleteFile s "root").files = s.files) ∧
    (∀ i n, ¬ i = "root" → (allIds s.files).Nodup → findItemById s.files i = some n →
      allIds ((deleteFile s i).files)
        = (allIds s.files).filter (fun x => decide (¬ x ∈ subtreeIds n)) ∧
      (deleteFile s i).selectedFile
        = (if s.selectedFile = some i then none else s.selectedFile)) := by
  constructor
  · simp [deleteFile]
  · intro i n hi hnd hf
    constructor
    · show allIds (if i = "root" then s.files else (removeItemList i s.files).1) = _
      rw [if_neg hi]
      exact (removeItemList_of_find_some s.files i n hnd hf).2
    · rfl

/-- C7 witness: deleting file `a` from a concrete three-node tree. -/
theorem claim_C7_witness :
    allIds ((deleteFile wsState "a").files)
      = (allIds wsState.files).filter (fun x => decide (¬ x ∈ subtreeIds fileNodeA)) ∧
    (deleteFile wsState "a").selectedFile
      = (if wsState.selectedFile = some "a" then none else wsState.selectedFile) :=
  (claim_C7_deleteFile wsState).2 "a" fileNodeA (by decide)
    (by
      have h : allIds wsState.files = ["root", "a", "d"] := by
        simp [wsState, fileNodeA, folderNodeD, allIds]
      rw [h]
      decide)
    (by simp [wsState, findItemById, fileNodeA, folderNodeD])

/-- C8 counterexample: the claim says out-of-range `moveTab` indices are
clamped or rejected, the tab list keeping exactly the same tabs. With
`fromIndex = 5` on a one-tab list the code instead splices an
`undefined` placeholder into the list. -/
theorem claim_C8_counterexample :
    moveTabList [tabA] 5 0 = [none, some tabA] ∧
    none ∈ moveTabList [tabA] 5 0 := by
  constructor <;> decide

/-- C8 (amended): when `fromIndex` is in range, `moveTab` preserves
exactly the tabs (any `toIndex` is clamped by `splice`, so the result is
a permutation of the original tabs); when `fromIndex` is out of range
the code neither clamps nor rejects: it keeps every original tab but
inserts one `undefined` placeholder. -/
theorem claim_C8_moveTab_amended (tabs : List TabInfo) (f t : Nat) :
    (f < tabs.length → (moveTabList tabs f t).Perm (tabs.map some)) ∧
    (tabs.length ≤ f → (moveTabList tabs f t).Perm (none :: tabs.map some)) := by
  constructor
  · intro hf
    have h1 : tabs[f]? = some tabs[f] := List.getElem?_eq_getElem hf
    have base : (moveTabList tabs f t).Perm (some tabs[f] :: (tabs.eraseIdx f).map some) := by
      rw [moveTabList, h1]
      exact jsSpliceInsert_perm _ _ _
    refine base.trans ?_
    have hf2 : f < (tabs.map some).length := by simpa using hf
    have h2 : tabs.map some
        = (tabs.map some).take f ++ some tabs[f] :: (tabs.map some).drop (f+1) := by
      conv_lhs => rw [← List.take_append_drop f (tabs.map some),
                      ← List.get_drop_eq_drop (tabs.map some) f hf2]
      simp
    rw [h2, List.eraseIdx_eq_take_drop_succ]
    simpa [List.map_take, List.map_drop] using List.perm_middle.symm
  · intro hf
    have h1 : tabs[f]? = none := by
      rw [List.getElem?_eq_none_iff]
      exact hf
    have h2 : tabs.eraseIdx f = tabs := List.eraseIdx_eq_self.mpr hf
    rw [moveTabList, h1, h2]
    exact jsSpliceInsert_perm _ _ _

/-- C8 witness: one in-range move and one out-of-range move. -/
theorem claim_C8_witness :
    ((moveTabList [tabA, tabB] 0 1).Perm ([tabA, tabB].map some)) ∧
    ((moveTabList [tabA] 5 0).Perm (none :: [tabA].map some)) :=
  ⟨(claim_C8_moveTab_amended [tabA, tabB] 0 1).1 (by decide),
   (claim_C8_moveTab_amended [tabA] 5 0).2 (by decide)⟩

/-- C9: closing a tab that is not the active tab changes neither the
active-tab id nor the tree store's selected file. -/
theorem claim_C9_closeTab_inactive_frame (s : IDEState) (tabId : String)
    (h : ¬ s.activeTabId = some tabId) :
    (closeTab s tabId).activeTabId = s.activeTabId ∧
    (closeTab s tabId).selectedFile = s.selectedFile := by
  cases hf : s.tabs.find? (fun t => t.id == tabId) <;>
    simp [closeTab, hf, h]

/-- C9 witness: closing the inactive tab `a` while `b` is active. -/
theorem claim_C9_witness :
    (closeTab wsState "a").activeTabId = wsState.activeTabId ∧
    (closeTab wsState "a").selectedFile = wsState.selectedFile :=
  claim_C9_closeTab_inactive_frame wsState "a" (by decide)

/-- C10: `updateTabContent` on a tab id with no entry in the open-tab
list leaves the tab list, the undo stack and the redo stack unchanged
(in particular the redo stack is not cleared). -/
theorem claim_C10_updateTabContent_missing_frame (s : IDEState) (tabId c : String)
    (h : s.tabs.find? (fun t => t.id == tabId) = none) :
    (updateTabContent s tabId c).tabs = s.tabs ∧
    (updateTabContent s tabId c).undoStack = s.undoStack ∧
    (updateTabContent s tabId c).redoStack = s.redoStack := by
  have hne : ∀ x ∈ s.tabs, ¬ x.id = tabId := by
    intro x hx
    have := List.find?_eq_none.mp h x hx
    simpa using this
  simp [updateTabContent, h, map_ite_id_of_forall_ne _ _ _ hne]

/-- C10 witness: updating an id that names no open tab. -/
theorem claim_C10_witness :
    (updateTabContent wsState "zz" "w").tabs = wsState.tabs ∧
    (updateTabContent wsState "zz" "w").undoStack = wsState.undoStack ∧
    (updateTabContent wsState "zz" "w").redoStack = wsState.redoStack :=
  claim_C10_updateTabContent_missing_frame wsState "zz" "w" (by rfl)

end Vortexity
